import Mathlib

/-!
Verification of the data-merge and normalization layer of the
FantasyLeagueStats repository (`fantasystats/fantasyleague/sleeper_api.py`
and the grouping logic of `fantasystats/fantasyleague/views.py`).

The Python code manipulates dynamically typed JSON values.  We embed those
values as the inductive type `PyVal` below (null, int, float, string, list,
dict).  Python floats are modelled as exact rationals (`Rat`); Python
booleans do not occur in the claim scenarios and are omitted.  All string
manipulation is re-implemented over `List Char` so that every definition
evaluates by kernel reduction.
-/

namespace FantasyStats

/-- A dynamically typed value, as delivered by the Sleeper JSON API.
`none` is Python `None`; `dict` is an association list with string keys
(JSON objects have unique string keys). -/
inductive PyVal where
  | none
  | int (n : Int)
  | float (q : Rat)
  | str (s : String)
  | list (xs : List PyVal)
  | dict (kvs : List (String × PyVal))

/-- Python truthiness: `None`, `0`, `0.0`, `""`, `[]` and `{}` are falsy,
everything else is truthy. -/
def PyVal.truthy : PyVal → Bool
  | .none => false
  | .int n => n != 0
  | .float q => q != 0
  | .str s => s != ""
  | .list xs => !xs.isEmpty
  | .dict kvs => !kvs.isEmpty

/-- `d.get(key)` on a Python dict: `some` the stored value, `Option.none`
when the key is missing.  On non-dict values Python would raise
`AttributeError`; the embedding totalizes this to a missing key (no claim
exercises `.get` on a non-dict). -/
def PyVal.get : PyVal → String → Option PyVal
  | .dict kvs, k => kvs.lookup k
  | _, _ => Option.none

/-- `d.get(key, default)`: Python returns `None` (here the value
`PyVal.none`) when the key is missing and no default is supplied. -/
def PyVal.getd (v : PyVal) (k : String) (dflt : PyVal) : PyVal :=
  (v.get k).getD dflt

/-- Is the value Python `None`? -/
def PyVal.isNone : PyVal → Bool
  | .none => true
  | _ => false

/-- Python `==` restricted to scalar values, used for dict-key lookups
(`roster_by_owner`).  Python compares `int` and `float` numerically
(`1 == 1.0`); lists and dicts are unhashable and would crash dict
construction in the source, so the embedding never matches them. -/
def pyEqScalar : PyVal → PyVal → Bool
  | .none, .none => true
  | .int a, .int b => a == b
  | .float a, .float b => a == b
  | .int a, .float b => (a : Rat) == b
  | .float a, .int b => a == (b : Rat)
  | .str a, .str b => a == b
  | _, _ => false

/-- Python `str()` for the scalar values that occur as player ids and name
fields.  Lists and dicts never reach `str()` in any claim scenario and get
a fixed placeholder rendering; rationals are rendered with Lean's `Rat`
syntax (Python float repr differs, but no claim coerces a float to a
string). -/
def pyStr : PyVal → String
  | .none => "None"
  | .int n => toString n
  | .float q => toString q
  | .str s => s
  | .list _ => "<list>"
  | .dict _ => "<dict>"

/-! ### String utilities over `List Char`

Lean's built-in `String.trim`, `String.toInt?` and the `String` order do
not reduce inside the kernel, so the Python string operations the source
uses (`str.strip`, `int(...)`/`float(...)` parsing, lexicographic
comparison) are re-implemented over `String.data`. -/

/-- Code-point comparison of characters, as Python compares strings. -/
def chLe (a b : Char) : Bool := decide (a ≤ b)

/-- Lexicographic `≤` on character lists (Python string comparison). -/
def clLe : List Char → List Char → Bool
  | [], _ => true
  | _ :: _, [] => false
  | a :: as, b :: bs => if a = b then clLe as bs else chLe a b

/-- Lexicographic `≤` on strings by code points, as in Python. -/
def sLe (a b : String) : Bool := clLe a.data b.data

/-- Python `str.strip()`: remove whitespace from both ends.  (Python's
whitespace set and `Char.isWhitespace` agree on ASCII, which is all the
claims exercise.) -/
def pyStrip (s : String) : String :=
  String.mk (((s.data.dropWhile Char.isWhitespace).reverse.dropWhile
    Char.isWhitespace).reverse)

/-- Numeric value of a (previously validated) list of decimal digits. -/
def digitsToNat (l : List Char) : Nat :=
  l.foldl (fun a c => a * 10 + (c.toNat - 48)) 0

/-- Parsing underlying Python `int(str)`: optional sign followed by a
non-empty digit string, surrounding whitespace ignored.  (Python also
allows `_` digit separators; no claim uses them.) -/
def parseIntStr (s : String) : Option Int :=
  let t := (pyStrip s).data
  let (neg, t) :=
    match t with
    | '-' :: r => (true, r)
    | '+' :: r => (false, r)
    | r => (false, r)
  if t ≠ [] ∧ t.all Char.isDigit then
    some (if neg then -(digitsToNat t : Int) else (digitsToNat t : Int))
  else
    Option.none

/-- Parsing underlying Python `float(str)`: optional sign, digits with an
optional decimal point, at least one digit overall; surrounding whitespace
ignored.  (Exponents, `inf` and `nan` are not representable in the exact
rational model and no claim uses them.) -/
def parseFloatStr (s : String) : Option Rat :=
  let t := (pyStrip s).data
  let (neg, t) :=
    match t with
    | '-' :: r => (true, r)
    | '+' :: r => (false, r)
    | r => (false, r)
  let ip := t.takeWhile Char.isDigit
  let rest := t.dropWhile Char.isDigit
  let core : Option Rat :=
    match rest with
    | [] => if ip ≠ [] then some (digitsToNat ip : Rat) else Option.none
    | '.' :: fp =>
      if fp.all Char.isDigit ∧ (ip ≠ [] ∨ fp ≠ []) then
        some ((digitsToNat ip : Rat) + (digitsToNat fp : Rat) / ((10 : Rat) ^ fp.length))
      else
        Option.none
    | _ => Option.none
  core.map (fun q => if neg then -q else q)

/-- Truncation toward zero, the behaviour of Python `int(float)`. -/
def pyTrunc (q : Rat) : Int := Int.tdiv q.num q.den

/-- Python `int(value)` as a partial function: `Option.none` models the
`ValueError`/`TypeError` that the source catches. -/
def pyToInt : PyVal → Option Int
  | .int n => some n
  | .float q => some (pyTrunc q)
  | .str s => parseIntStr s
  | _ => Option.none

/-- Python `float(value)` as a partial function: `Option.none` models the
`ValueError`/`TypeError` that the source catches. -/
def pyToFloat : PyVal → Option Rat
  | .int n => some (n : Rat)
  | .float q => some q
  | .str s => parseFloatStr s
  | _ => Option.none

/-! ### `safe_int` / `safe_float` (sleeper_api.py lines 16-33) -/

/-- `safe_int(value, default)`: return `default` when the value is `None`
or the conversion fails, otherwise the converted integer.  Totality of
this Lean function is the model of "never raises". -/
def safe_int (value : PyVal) (default : Int) : Int :=
  if value.isNone then default else (pyToInt value).getD default

/-- `safe_float(value, default)`: return `default` when the value is
`None` or the conversion fails, otherwise the converted number. -/
def safe_float (value : PyVal) (default : Rat) : Rat :=
  if value.isNone then default else (pyToFloat value).getD default

/-- **C2.** For every input value, `safe_int` and `safe_float` return the
caller-supplied default when the value is `None`, absent (callers feed a
missing key through as `PyVal.none`), or not convertible to a number, and
the converted number when it is convertible.  Both functions are total
(never raise). -/
theorem safe_conversion_spec :
    (∀ dI dF, safe_int PyVal.none dI = dI ∧ safe_float PyVal.none dF = dF) ∧
    (∀ v dI, pyToInt v = Option.none → safe_int v dI = dI) ∧
    (∀ v dI n, pyToInt v = some n → safe_int v dI = n) ∧
    (∀ v dF, pyToFloat v = Option.none → safe_float v dF = dF) ∧
    (∀ v dF, ∀ q : Rat, pyToFloat v = some q → safe_float v dF = q) := by
  refine ⟨fun dI dF => ⟨rfl, rfl⟩, ?_, ?_, ?_, ?_⟩
  · intro v dI h
    cases v <;> simp [safe_int, PyVal.isNone, h]
  · intro v dI n h
    cases v <;> simp_all [safe_int, PyVal.isNone, pyToInt]
  · intro v dF h
    cases v <;> simp [safe_float, PyVal.isNone, h]
  · intro v dF q h
    cases v <;> simp_all [safe_float, PyVal.isNone, pyToFloat]

/-- Witness for C2 at concrete inputs: the non-numeric string `"abc"`
yields the default `0`, and the convertible string `"45"` yields `45`. -/
theorem safe_conversion_spec_witness :
    safe_int (PyVal.str "abc") 0 = 0 ∧ safe_int (PyVal.str "45") 0 = 45 := by
  constructor
  · exact safe_conversion_spec.2.1 (PyVal.str "abc") 0 (by decide)
  · exact safe_conversion_spec.2.2.1 (PyVal.str "45") 0 45 (by decide)

/-! ### Division-list resolution (sleeper_api.py lines 177-189) -/

/-- The division-list resolution of `get_league_teams`:
```
divisions = []
if league_info and league_info.get('settings'):
    divisions_raw = league_info.get('settings', {}).get('divisions', [])
    if divisions_raw:
        if isinstance(divisions_raw, list) and divisions_raw and isinstance(divisions_raw[0], str):
            divisions = divisions_raw
        elif isinstance(divisions_raw, (int, float)):
            divisions = [f"Division {i+1}" for i in range(int(divisions_raw))]
```
`league_info` is `Option` because `get_league_info` returns `None` on any
fetch failure. -/
def divisionsOfRaw (raw : PyVal) : List PyVal :=
  if ¬ raw.truthy then [] else
  match raw with
  | PyVal.list (x :: xs) =>
    match x with
    | PyVal.str _ => x :: xs
    | _ => []
  | PyVal.int n =>
    (List.range n.toNat).map (fun i => PyVal.str ("Division " ++ toString (i + 1)))
  | PyVal.float q =>
    (List.range (pyTrunc q).toNat).map (fun i => PyVal.str ("Division " ++ toString (i + 1)))
  | _ => []

/-- See the doc comment on `divisionsOfRaw` above: this is the outer guard
chain of the quoted source. -/
def resolve_divisions (league_info : Option PyVal) : List PyVal :=
  match league_info with
  | Option.none => []
  | some li =>
    if ¬ li.truthy then [] else
    let settingsV := li.getd "settings" PyVal.none
    if ¬ settingsV.truthy then [] else
    divisionsOfRaw (settingsV.getd "divisions" (PyVal.list []))

/-- Reduction of `resolve_divisions` once league info and settings are
known to be truthy. -/
theorem resolve_divisions_reduce (li s : PyVal) (h1 : li.truthy = true)
    (h2 : li.getd "settings" PyVal.none = s) (h3 : s.truthy = true) :
    resolve_divisions (some li) =
      divisionsOfRaw (s.getd "divisions" (PyVal.list [])) := by
  simp [resolve_divisions, h1, h2, h3]

/-- **C3, counterexample.**  The claim says any shape of
`settings.divisions` other than a non-empty list of strings or a number
yields no divisions; but the source only checks that the *first* element
is a string, so the mixed list `["East", 7]` is used verbatim and the
resolved division list is non-empty. -/
theorem divisions_mixed_list_counterexample :
    resolve_divisions (some (PyVal.dict [("settings",
        PyVal.dict [("divisions",
          PyVal.list [PyVal.str "East", PyVal.int 7])])])) =
      [PyVal.str "East", PyVal.int 7] := by
  rfl

/-- **C3, amended.**  For every league-info value, the resolved division
list is: the list itself when `settings.divisions` is a non-empty list
whose *first* element is a string (in particular, any non-empty list of
strings); the synthesized names `"Division 1"` through `"Division N"` when
`settings.divisions` is an integer `N` (empty when `N ≤ 0`); and empty for
any other shape — a list whose first element is not a string, an empty
list, a dict (in particular `{}`), a string, `None`, an absent
`divisions` field, a falsy or absent `settings` field, or absent league
info. -/
theorem resolve_divisions_spec :
    (∀ li s name rest, li.truthy = true →
      li.getd "settings" PyVal.none = s → s.truthy = true →
      s.getd "divisions" (PyVal.list []) = PyVal.list (PyVal.str name :: rest) →
      resolve_divisions (some li) = PyVal.str name :: rest) ∧
    (∀ li s n, li.truthy = true →
      li.getd "settings" PyVal.none = s → s.truthy = true →
      s.getd "divisions" (PyVal.list []) = PyVal.int n →
      resolve_divisions (some li) =
        (List.range n.toNat).map (fun i => PyVal.str ("Division " ++ toString (i + 1)))) ∧
    (∀ li s x rest, li.truthy = true →
      li.getd "settings" PyVal.none = s → s.truthy = true →
      s.getd "divisions" (PyVal.list []) = PyVal.list (x :: rest) →
      (∀ nm, x ≠ PyVal.str nm) →
      resolve_divisions (some li) = []) ∧
    (∀ li s kvs, li.truthy = true →
      li.getd "settings" PyVal.none = s → s.truthy = true →
      s.getd "divisions" (PyVal.list []) = PyVal.dict kvs →
      resolve_divisions (some li) = []) ∧
    (∀ li s str0, li.truthy = true →
      li.getd "settings" PyVal.none = s → s.truthy = true →
      s.getd "divisions" (PyVal.list []) = PyVal.str str0 →
      resolve_divisions (some li) = []) ∧
    (∀ li s, li.truthy = true →
      li.getd "settings" PyVal.none = s → s.truthy = true →
      (s.getd "divisions" (PyVal.list []) = PyVal.list [] ∨
        s.getd "divisions" (PyVal.list []) = PyVal.none) →
      resolve_divisions (some li) = []) ∧
    (∀ li s, li.truthy = true →
      li.getd "settings" PyVal.none = s → s.truthy = false →
      resolve_divisions (some li) = []) ∧
    (∀ li, li.truthy = false → resolve_divisions (some li) = []) ∧
    resolve_divisions Option.none = [] := by
  refine ⟨?_, ?_, ?_, ?_, ?_, ?_, ?_, ?_, rfl⟩
  · intro li s name rest h1 h2 h3 h4
    rw [resolve_divisions_reduce li s h1 h2 h3, h4]
    simp [divisionsOfRaw, PyVal.truthy]
  · intro li s n h1 h2 h3 h4
    rw [resolve_divisions_reduce li s h1 h2 h3, h4]
    by_cases hn : n = 0
    · subst hn
      simp [divisionsOfRaw, PyVal.truthy]
    · simp [divisionsOfRaw, PyVal.truthy, hn]
  · intro li s x rest h1 h2 h3 h4 hx
    rw [resolve_divisions_reduce li s h1 h2 h3, h4]
    cases x <;> simp_all [divisionsOfRaw, PyVal.truthy]
  · intro li s kvs h1 h2 h3 h4
    rw [resolve_divisions_reduce li s h1 h2 h3, h4]
    by_cases hk : kvs = []
    · subst hk
      simp [divisionsOfRaw, PyVal.truthy]
    · simp [divisionsOfRaw, PyVal.truthy, hk]
  · intro li s str0 h1 h2 h3 h4
    rw [resolve_divisions_reduce li s h1 h2 h3, h4]
    by_cases hs : str0 = ""
    · subst hs
      simp [divisionsOfRaw, PyVal.truthy]
    · simp [divisionsOfRaw, PyVal.truthy, hs]
  · intro li s h1 h2 h3 h4
    rw [resolve_divisions_reduce li s h1 h2 h3]
    cases h4 with
    | inl h => rw [h]; simp [divisionsOfRaw, PyVal.truthy]
    | inr h => rw [h]; simp [divisionsOfRaw, PyVal.truthy]
  · intro li s h1 h2 h3
    simp [resolve_divisions, h1, h2, h3]
  · intro li h1
    simp [resolve_divisions, h1]

/-- Witness for C3 at concrete inputs: `["East","West"]` is used
verbatim, `4` synthesizes `Division 1 … Division 4`, and `{}` yields no
divisions. -/
theorem resolve_divisions_spec_witness :
    resolve_divisions (some (PyVal.dict [("settings",
        PyVal.dict [("divisions",
          PyVal.list [PyVal.str "East", PyVal.str "West"])])])) =
      [PyVal.str "East", PyVal.str "West"] ∧
    resolve_divisions (some (PyVal.dict [("settings",
        PyVal.dict [("divisions", PyVal.int 4)])])) =
      [PyVal.str "Division 1", PyVal.str "Division 2",
       PyVal.str "Division 3", PyVal.str "Division 4"] ∧
    resolve_divisions (some (PyVal.dict [("settings",
        PyVal.dict [("divisions", PyVal.dict [])])])) = [] := by
  refine ⟨?_, ?_, ?_⟩
  · exact resolve_divisions_spec.1
      (PyVal.dict [("settings", PyVal.dict [("divisions",
        PyVal.list [PyVal.str "East", PyVal.str "West"])])])
      (PyVal.dict [("divisions", PyVal.list [PyVal.str "East", PyVal.str "West"])])
      "East" [PyVal.str "West"] (by decide) rfl (by decide) rfl
  · have h := resolve_divisions_spec.2.1
      (PyVal.dict [("settings", PyVal.dict [("divisions", PyVal.int 4)])])
      (PyVal.dict [("divisions", PyVal.int 4)])
      4 (by decide) rfl (by decide) rfl
    simpa using h
  · exact resolve_divisions_spec.2.2.2.1
      (PyVal.dict [("settings", PyVal.dict [("divisions", PyVal.dict [])])])
      (PyVal.dict [("divisions", PyVal.dict [])])
      [] (by decide) rfl (by decide) rfl

/-! ### Division resolution for one roster (sleeper_api.py lines 213-240) -/

/-- The raw division index of a roster:
```
division_num = None
if roster.get('settings'):
    division_num = roster.get('settings', {}).get('division', None)
if division_num is None:
    division_num = roster.get('division', None)
```
A missing key surfaces as Python `None` (`PyVal.none` here). -/
def divisionIndexRaw (roster : PyVal) : PyVal :=
  let s := roster.getd "settings" PyVal.none
  let fromSettings := if s.truthy then s.getd "division" PyVal.none else PyVal.none
  if fromSettings.isNone then roster.getd "division" PyVal.none else fromSettings

/-- Division resolution for one roster (only runs when the divisions list
is non-empty):
```
if division_num is not None:
    try:
        division_num = int(division_num)
        if 1 <= division_num <= len(divisions):
            division = divisions[division_num - 1]
        elif 0 <= division_num < len(divisions):
            division = divisions[division_num]
        else: ...
    except (ValueError, TypeError): pass
```
The `except` branch is the `Option.none` result of `pyToInt`. -/
def resolveDivision (divisions : List String) (roster : PyVal) : Option String :=
  if divisions.isEmpty then Option.none else
  let dn := divisionIndexRaw roster
  if dn.isNone then Option.none else
  match pyToInt dn with
  | Option.none => Option.none
  | some n =>
    if 1 ≤ n ∧ n ≤ divisions.length then divisions[(n - 1).toNat]?
    else if 0 ≤ n ∧ n < divisions.length then divisions[n.toNat]?
    else Option.none

/-- **C1.**  For every non-empty divisions list and every roster: the
index is read first from `settings.division` and otherwise from the
roster's top-level `division` field; a found index resolves 1-indexed
(`divisions[index-1]`) when `1 ≤ index ≤ len`, else 0-indexed
(`divisions[index]`) when `0 ≤ index < len`, and otherwise — including a
non-numeric index — the division is left unresolved (`Option.none`, never
a failure: `resolveDivision` is total).  In particular for a 2-division
list, index 1 resolves to `divisions[0]`, index 2 to `divisions[1]`, and
index 0 to `divisions[0]` via the 0-indexed fallback. -/
theorem division_resolution_spec :
    (∀ roster s v, roster.getd "settings" PyVal.none = s → s.truthy = true →
      s.getd "division" PyVal.none = v → v.isNone = false →
      divisionIndexRaw roster = v) ∧
    (∀ roster s, roster.getd "settings" PyVal.none = s →
      (s.truthy = false ∨ (s.getd "division" PyVal.none).isNone = true) →
      divisionIndexRaw roster = roster.getd "division" PyVal.none) ∧
    (∀ divisions roster n, divisions ≠ [] →
      pyToInt (divisionIndexRaw roster) = some n →
      (1 ≤ n ∧ n ≤ divisions.length →
        resolveDivision divisions roster = divisions[(n - 1).toNat]?) ∧
      (¬ (1 ≤ n ∧ n ≤ divisions.length) → 0 ≤ n ∧ n < divisions.length →
        resolveDivision divisions roster = divisions[n.toNat]?) ∧
      (¬ (1 ≤ n ∧ n ≤ divisions.length) → ¬ (0 ≤ n ∧ n < divisions.length) →
        resolveDivision divisions roster = Option.none)) ∧
    (∀ divisions roster, (divisionIndexRaw roster).isNone = true ∨
        pyToInt (divisionIndexRaw roster) = Option.none →
      resolveDivision divisions roster = Option.none) ∧
    (∀ d1 d2 roster, pyToInt (divisionIndexRaw roster) = some 1 →
      resolveDivision [d1, d2] roster = some d1) ∧
    (∀ d1 d2 roster, pyToInt (divisionIndexRaw roster) = some 2 →
      resolveDivision [d1, d2] roster = some d2) ∧
    (∀ d1 d2 roster, pyToInt (divisionIndexRaw roster) = some 0 →
      resolveDivision [d1, d2] roster = some d1) := by
  have hNone : ∀ v : PyVal, v.isNone = true → pyToInt v = Option.none := by
    intro v hv
    cases v <;> simp_all [PyVal.isNone, pyToInt]
  have hNotNone : ∀ v : PyVal, ∀ n, pyToInt v = some n → v.isNone = false := by
    intro v n hv
    cases v <;> simp_all [PyVal.isNone, pyToInt]
  refine ⟨?_, ?_, ?_, ?_, ?_, ?_, ?_⟩
  · intro roster s v h1 h2 h3 h4
    simp [divisionIndexRaw, h1, h2, h3, h4]
  · intro roster s h1 h2
    cases h2 with
    | inl h => simp [divisionIndexRaw, h1, h, PyVal.isNone]
    | inr h =>
      by_cases hs : s.truthy
      · simp [divisionIndexRaw, h1, hs, h]
      · simp [divisionIndexRaw, h1, hs, PyVal.isNone]
  · intro divisions roster n hne hconv
    have hE : divisions.isEmpty = false := by
      cases divisions <;> simp_all
    refine ⟨?_, ?_, ?_⟩
    · intro hin
      simp [resolveDivision, hE, hNotNone _ _ hconv, hconv, hin]
    · intro hout hin0
      simp [resolveDivision, hE, hNotNone _ _ hconv, hconv, hout, hin0]
    · intro hout hout0
      simp [resolveDivision, hE, hNotNone _ _ hconv, hconv, hout, hout0]
  · intro divisions roster h
    have hn : pyToInt (divisionIndexRaw roster) = Option.none := by
      cases h with
      | inl h => exact hNone _ h
      | inr h => exact h
    by_cases hE : divisions.isEmpty
    · simp [resolveDivision, hE]
    · by_cases hN : (divisionIndexRaw roster).isNone <;>
        simp [resolveDivision, hE, hN, hn]
  · intro d1 d2 roster h
    simp [resolveDivision, hNotNone _ _ h, h]
  · intro d1 d2 roster h
    simp [resolveDivision, hNotNone _ _ h, h]
  · intro d1 d2 roster h
    simp [resolveDivision, hNotNone _ _ h, h]

/-- Witness for C1 at concrete inputs: with divisions `["East","West"]`,
a roster holding `settings.division = 1` resolves to `"East"`, top-level
`division = 2` resolves to `"West"`, `division = 0` resolves to `"East"`
via the 0-indexed fallback, and a non-numeric index resolves to nothing. -/
theorem division_resolution_spec_witness :
    resolveDivision ["East", "West"]
      (PyVal.dict [("settings", PyVal.dict [("division", PyVal.int 1)])]) =
        some "East" ∧
    resolveDivision ["East", "West"]
      (PyVal.dict [("division", PyVal.int 2)]) = some "West" ∧
    resolveDivision ["East", "West"]
      (PyVal.dict [("settings", PyVal.dict [("division", PyVal.int 0)])]) =
        some "East" ∧
    resolveDivision ["East", "West"]
      (PyVal.dict [("division", PyVal.str "junk")]) = Option.none := by
  refine ⟨?_, ?_, ?_, ?_⟩
  · exact division_resolution_spec.2.2.2.2.1 "East" "West"
      (PyVal.dict [("settings", PyVal.dict [("division", PyVal.int 1)])]) rfl
  · exact division_resolution_spec.2.2.2.2.2.1 "East" "West"
      (PyVal.dict [("division", PyVal.int 2)]) rfl
  · exact division_resolution_spec.2.2.2.2.2.2 "East" "West"
      (PyVal.dict [("settings", PyVal.dict [("division", PyVal.int 0)])]) rfl
  · exact division_resolution_spec.2.2.2.1 ["East", "West"]
      (PyVal.dict [("division", PyVal.str "junk")]) (Or.inr (by rfl))

/-! ### Team-name resolution (sleeper_api.py lines 209-211) -/

/-- `metadata = user.get('metadata', {}) or {}` -/
def metadataOf (user : PyVal) : PyVal :=
  let m := user.getd "metadata" (PyVal.dict [])
  if m.truthy then m else PyVal.dict []

/-- `team_name = metadata.get('team_name') or user.get('display_name') or
user.get('username', 'Unknown Team')`: Python `or` returns the first
truthy operand, else the last operand unchanged. -/
def teamName (user : PyVal) : PyVal :=
  let tn := (metadataOf user).getd "team_name" PyVal.none
  if tn.truthy then tn else
  let dn := user.getd "display_name" PyVal.none
  if dn.truthy then dn else
  user.getd "username" (PyVal.str "Unknown Team")

/-- **C4.**  Resolved team-name precedence: the metadata team name when
present (truthy); otherwise the display name when present (truthy);
otherwise the username field whenever the `username` key exists; and the
literal `"Unknown Team"` when all three are absent. -/
theorem team_name_precedence_spec :
    (∀ user tn, (metadataOf user).getd "team_name" PyVal.none = tn →
      tn.truthy = true → teamName user = tn) ∧
    (∀ user tn dn, (metadataOf user).getd "team_name" PyVal.none = tn →
      tn.truthy = false → user.getd "display_name" PyVal.none = dn →
      dn.truthy = true → teamName user = dn) ∧
    (∀ user tn dn v, (metadataOf user).getd "team_name" PyVal.none = tn →
      tn.truthy = false → user.getd "display_name" PyVal.none = dn →
      dn.truthy = false → user.get "username" = some v →
      teamName user = v) ∧
    (∀ user tn dn, (metadataOf user).getd "team_name" PyVal.none = tn →
      tn.truthy = false → user.getd "display_name" PyVal.none = dn →
      dn.truthy = false → user.get "username" = Option.none →
      teamName user = PyVal.str "Unknown Team") := by
  refine ⟨?_, ?_, ?_, ?_⟩
  · intro user tn h1 h2
    simp [teamName, h1, h2]
  · intro user tn dn h1 h2 h3 h4
    simp [teamName, h1, h2, h3, h4]
  · intro user tn dn v h1 h2 h3 h4 h5
    have : teamName user = user.getd "username" (PyVal.str "Unknown Team") := by
      simp [teamName, h1, h2, h3, h4]
    rw [this]
    simp [PyVal.getd, h5]
  · intro user tn dn h1 h2 h3 h4 h5
    have : teamName user = user.getd "username" (PyVal.str "Unknown Team") := by
      simp [teamName, h1, h2, h3, h4]
    rw [this]
    simp [PyVal.getd, h5]

/-- Witness for C4 at concrete inputs, one per precedence level. -/
theorem team_name_precedence_spec_witness :
    teamName (PyVal.dict [("metadata", PyVal.dict [("team_name", PyVal.str "A")]),
      ("display_name", PyVal.str "B"), ("username", PyVal.str "C")]) =
        PyVal.str "A" ∧
    teamName (PyVal.dict [("display_name", PyVal.str "B"),
      ("username", PyVal.str "C")]) = PyVal.str "B" ∧
    teamName (PyVal.dict [("username", PyVal.str "C")]) = PyVal.str "C" ∧
    teamName (PyVal.dict []) = PyVal.str "Unknown Team" := by
  refine ⟨?_, ?_, ?_, ?_⟩
  · exact team_name_precedence_spec.1
      (PyVal.dict [("metadata", PyVal.dict [("team_name", PyVal.str "A")]),
        ("display_name", PyVal.str "B"), ("username", PyVal.str "C")])
      (PyVal.str "A") rfl (by decide)
  · exact team_name_precedence_spec.2.1
      (PyVal.dict [("display_name", PyVal.str "B"), ("username", PyVal.str "C")])
      PyVal.none (PyVal.str "B") rfl (by decide) rfl (by decide)
  · exact team_name_precedence_spec.2.2.1
      (PyVal.dict [("username", PyVal.str "C")])
      PyVal.none PyVal.none (PyVal.str "C") rfl (by decide) rfl (by decide) rfl
  · exact team_name_precedence_spec.2.2.2
      (PyVal.dict []) PyVal.none PyVal.none rfl (by decide) rfl (by decide) rfl

/-! ### Numeric team fields (sleeper_api.py lines 245-258) -/

/-- `settings = roster.get('settings', {}) or {}` -/
def rosterSettings (roster : PyVal) : PyVal :=
  let s := roster.getd "settings" (PyVal.dict [])
  if s.truthy then s else PyVal.dict []

/-- `fpts = safe_float(settings.get('fpts'), 0.0)` -/
def fptsOf (settings : PyVal) : Rat :=
  safe_float (settings.getd "fpts" PyVal.none) 0

/-- `fpts_decimal = safe_float(settings.get('fpts_decimal'), 0.0)` -/
def fptsDecimalOf (settings : PyVal) : Rat :=
  safe_float (settings.getd "fpts_decimal" PyVal.none) 0

/-- `total_points = fpts + (fpts_decimal / 100.0)` -/
def totalPointsOf (settings : PyVal) : Rat :=
  fptsOf settings + fptsDecimalOf settings / 100

/-- **C7.**  For every roster, `total_points` is recomputed as
`fpts + fpts_decimal/100` from the safely converted `fpts` and
`fpts_decimal` fields (each defaulting to `0.0` when absent or
non-numeric) — in particular it is unaffected by any pre-combined
`total_points` field in the source settings — and `fpts = 100`,
`fpts_decimal = 45` give exactly `100.45`. -/
theorem total_points_spec :
    (∀ settings : PyVal,
      totalPointsOf settings =
        safe_float (settings.getd "fpts" PyVal.none) 0 +
          safe_float (settings.getd "fpts_decimal" PyVal.none) 0 / 100) ∧
    (∀ kvs v, totalPointsOf (PyVal.dict (("total_points", v) :: kvs)) =
      totalPointsOf (PyVal.dict kvs)) ∧
    totalPointsOf (PyVal.dict [("fpts", PyVal.int 100),
      ("fpts_decimal", PyVal.int 45)]) = (10045 : Rat) / 100 := by
  refine ⟨fun settings => rfl, ?_, ?_⟩
  · intro kvs v
    simp [totalPointsOf, fptsOf, fptsDecimalOf, PyVal.getd, PyVal.get,
      List.lookup]
  · show safe_float (PyVal.int 100) 0 + safe_float (PyVal.int 45) 0 / 100 = _
    simp [safe_float, PyVal.isNone, pyToFloat]
    norm_num

/-! ### Roster player resolution (sleeper_api.py lines 302-383)

Player ids delivered by the API are scalars (strings, occasionally
integers); `PId` models exactly those.  The player catalog maps a string
id to a player object; we type the entries as dicts (`ExternalPlayer` in
the spec's data model), which is every shape the source reads fields
from. -/

/-- A roster player id: a JSON string or integer. -/
inductive PId where
  | int (n : Int)
  | str (s : String)
deriving DecidableEq

/-- Python `str(player_id)` for a scalar id. -/
def PId.toStr : PId → String
  | .int n => toString n
  | .str s => s

/-- The working player-id list (lines 315-331):
```
player_ids = roster.get('players') or []
starters = roster.get('starters') or []
reserve = roster.get('reserve') or []
if len(player_ids) == 0 and len(starters) > 0:
    all_player_ids = list(set(starters + reserve))
    player_ids = all_player_ids
```
`list(set(...))` produces each member once in an unspecified order; it is
modelled by `List.dedup`. -/
def workingPlayerIds (players starters reserve : List PId) : List PId :=
  if players.length = 0 ∧ starters.length > 0 then
    (starters ++ reserve).dedup
  else
    players

/-- **C5.**  The working player-id list is the deduplicated union of
starters and reserve when the primary list is empty and the starters list
is non-empty, and the primary list otherwise; with primary `[]`, starters
`[11, 12]`, reserve `[13]` it holds exactly the ids 11, 12, 13, each
once. -/
theorem working_player_ids_spec :
    (∀ players starters reserve : List PId, players = [] → starters ≠ [] →
      (workingPlayerIds players starters reserve).Nodup ∧
      ∀ x, x ∈ workingPlayerIds players starters reserve ↔
        (x ∈ starters ∨ x ∈ reserve)) ∧
    (∀ players starters reserve : List PId, players ≠ [] ∨ starters = [] →
      workingPlayerIds players starters reserve = players) ∧
    (∀ x, x ∈ workingPlayerIds [] [PId.int 11, PId.int 12] [PId.int 13] ↔
      (x = PId.int 11 ∨ x = PId.int 12 ∨ x = PId.int 13)) ∧
    (workingPlayerIds [] [PId.int 11, PId.int 12] [PId.int 13]).Nodup := by
  have hmain : ∀ players starters reserve : List PId, players = [] → starters ≠ [] →
      (workingPlayerIds players starters reserve).Nodup ∧
      ∀ x, x ∈ workingPlayerIds players starters reserve ↔
        (x ∈ starters ∨ x ∈ reserve) := by
    intro players starters reserve h1 h2
    subst h1
    have hcond : ([] : List PId).length = 0 ∧ starters.length > 0 := by
      refine ⟨rfl, ?_⟩
      cases starters with
      | nil => exact absurd rfl h2
      | cons a l => simp
    constructor
    · rw [workingPlayerIds, if_pos hcond]
      exact List.nodup_dedup _
    · intro x
      rw [workingPlayerIds, if_pos hcond, List.mem_dedup, List.mem_append]
  refine ⟨hmain, ?_, ?_, ?_⟩
  · intro players starters reserve h
    rcases h with h | h
    · have : ¬ (players.length = 0 ∧ starters.length > 0) := by
        intro hc
        exact h (List.length_eq_zero.mp hc.1)
      rw [workingPlayerIds, if_neg this]
    · subst h
      have : ¬ (players.length = 0 ∧ ([] : List PId).length > 0) := by
        simp
      rw [workingPlayerIds, if_neg this]
  · intro x
    rw [(hmain [] [PId.int 11, PId.int 12] [PId.int 13] rfl (by simp)).2 x]
    simp [or_assoc]
  · exact (hmain [] [PId.int 11, PId.int 12] [PId.int 13] rfl (by simp)).1

/-- Witness for C5: the concrete roster of the claim, with the
deduplicated union evaluated on an input holding a duplicate. -/
theorem working_player_ids_spec_witness :
    (PId.int 13 ∈ workingPlayerIds [] [PId.int 11, PId.int 12] [PId.int 13]) ∧
    workingPlayerIds [PId.int 7] [] [] = [PId.int 7] := by
  constructor
  · exact (working_player_ids_spec.2.2.1 (PId.int 13)).mpr (Or.inr (Or.inr rfl))
  · exact working_player_ids_spec.2.1 [PId.int 7] [] []
      (Or.inl (by simp))

/-- One resolved roster player (the dicts appended to `roster_players`,
lines 349-372). -/
structure RosterPlayer where
  player_id : PId
  name : String
  position : PyVal
  team : PyVal
  is_starter : Bool
  is_reserve : Bool

/-- The player catalog, keyed by string player id. -/
abbrev PlayersMap := List (String × List (String × PyVal))

/-- The body of the per-id loop (lines 350-372):
```
player_id_str = str(player_id)
player_info = players_data.get(player_id_str, {}) if players_data else {}
if not player_info:
    roster_players.append({..., 'name': f"Player {player_id}",
        'position': '', 'team': '',
        'is_starter': player_id_str in starters_set, ...})
else:
    roster_players.append({...,
        'name': f"{player_info.get('first_name', '')} {player_info.get('last_name', '')}".strip() or f"Player {player_id}",
        'position': player_info.get('position', ''), ...})
```
`starters_set`/`reserve_set` are the string-coerced starter and reserve
id sets. -/
def mkRosterPlayer (players_data : PlayersMap)
    (starters_set reserve_set : List String) (player_id : PId) : RosterPlayer :=
  let pidS := player_id.toStr
  let info : List (String × PyVal) :=
    if players_data.isEmpty then [] else (players_data.lookup pidS).getD []
  if info.isEmpty then
    { player_id := player_id
      name := "Player " ++ pidS
      position := PyVal.str ""
      team := PyVal.str ""
      is_starter := pidS ∈ starters_set
      is_reserve := pidS ∈ reserve_set }
  else
    let nm := pyStrip (pyStr ((info.lookup "first_name").getD (PyVal.str "")) ++
      " " ++ pyStr ((info.lookup "last_name").getD (PyVal.str "")))
    { player_id := player_id
      name := if nm = "" then "Player " ++ pidS else nm
      position := (info.lookup "position").getD (PyVal.str "")
      team := (info.lookup "team").getD (PyVal.str "")
      is_starter := pidS ∈ starters_set
      is_reserve := pidS ∈ reserve_set }

/-- The full per-roster loop: one `RosterPlayer` per working id, with the
starter/reserve membership sets built by string coercion
(`starters_set = {str(s) for s in starters}`, lines 333-335). -/
def rosterPlayers (players_data : PlayersMap)
    (starters reserve player_ids : List PId) : List RosterPlayer :=
  player_ids.map
    (mkRosterPlayer players_data (starters.map PId.toStr) (reserve.map PId.toStr))

/-- Every produced record carries the id it was produced for. -/
theorem mkRosterPlayer_player_id (pd : PlayersMap) (sset rset : List String)
    (pid : PId) : (mkRosterPlayer pd sset rset pid).player_id = pid := by
  unfold mkRosterPlayer
  dsimp only
  split <;> first | rfl | (split <;> rfl)

/-- The starter flag is string-coerced membership in the starter set. -/
theorem mkRosterPlayer_is_starter (pd : PlayersMap) (sset rset : List String)
    (pid : PId) :
    (mkRosterPlayer pd sset rset pid).is_starter = decide (pid.toStr ∈ sset) := by
  unfold mkRosterPlayer
  dsimp only
  split <;> first | rfl | (split <;> rfl)

/-- The reserve flag is string-coerced membership in the reserve set. -/
theorem mkRosterPlayer_is_reserve (pd : PlayersMap) (sset rset : List String)
    (pid : PId) :
    (mkRosterPlayer pd sset rset pid).is_reserve = decide (pid.toStr ∈ rset) := by
  unfold mkRosterPlayer
  dsimp only
  split <;> first | rfl | (split <;> rfl)

/-- **C6.**  For every id in the working list the resolver produces
exactly one record (no id omitted, order preserved); the name is the
trimmed concatenation of catalog first/last name when non-empty after
trimming and `"Player {id}"` otherwise; an id missing from the catalog
(or any id when the catalog is empty) yields empty position and team; and
every record carries is_starter/is_reserve computed by string-coerced
membership in the starters and reserve lists. -/
theorem roster_players_spec :
    (∀ (pd : PlayersMap) (starters reserve ids : List PId),
      (rosterPlayers pd starters reserve ids).length = ids.length) ∧
    (∀ (pd : PlayersMap) (starters reserve ids : List PId) (i : Nat),
      ∀ h : i < ids.length,
      ∀ h2 : i < (rosterPlayers pd starters reserve ids).length,
      ((rosterPlayers pd starters reserve ids).get ⟨i, h2⟩).player_id =
        ids.get ⟨i, h⟩) ∧
    (∀ (pd : PlayersMap) (starters reserve : List PId) (pid : PId),
      (mkRosterPlayer pd (starters.map PId.toStr) (reserve.map PId.toStr)
          pid).is_starter = decide (pid.toStr ∈ starters.map PId.toStr) ∧
      (mkRosterPlayer pd (starters.map PId.toStr) (reserve.map PId.toStr)
          pid).is_reserve = decide (pid.toStr ∈ reserve.map PId.toStr)) ∧
    (∀ (pd : PlayersMap) (sset rset : List String) (pid : PId),
      pd.lookup pid.toStr = Option.none →
      (mkRosterPlayer pd sset rset pid).name = "Player " ++ pid.toStr ∧
      (mkRosterPlayer pd sset rset pid).position = PyVal.str "" ∧
      (mkRosterPlayer pd sset rset pid).team = PyVal.str "") ∧
    (∀ (pd : PlayersMap) (sset rset : List String) (pid : PId)
      (info : List (String × PyVal)), pd.isEmpty = false →
      pd.lookup pid.toStr = some info → info.isEmpty = false →
      (mkRosterPlayer pd sset rset pid).name =
        (if pyStrip (pyStr ((info.lookup "first_name").getD (PyVal.str "")) ++
            " " ++ pyStr ((info.lookup "last_name").getD (PyVal.str ""))) = ""
          then "Player " ++ pid.toStr
          else pyStrip (pyStr ((info.lookup "first_name").getD (PyVal.str "")) ++
            " " ++ pyStr ((info.lookup "last_name").getD (PyVal.str ""))))) := by
  refine ⟨?_, ?_, ?_, ?_, ?_⟩
  · intro pd starters reserve ids
    simp [rosterPlayers]
  · intro pd starters reserve ids i h h2
    simp [rosterPlayers, mkRosterPlayer_player_id]
  · intro pd starters reserve pid
    exact ⟨mkRosterPlayer_is_starter pd _ _ pid, mkRosterPlayer_is_reserve pd _ _ pid⟩
  · intro pd sset rset pid hlook
    unfold mkRosterPlayer
    by_cases hpd : pd.isEmpty <;> simp [hpd, hlook]
  · intro pd sset rset pid info hpd hlook hinfo
    unfold mkRosterPlayer
    simp [hpd, hlook, hinfo]

/-- Witness for C6: a two-id roster where id 11 is missing from the
catalog (placeholder name, empty position and team, still present) and
id 12 is enriched from it; starter/reserve flags by string coercion. -/
theorem roster_players_spec_witness :
    (rosterPlayers [("12", [("first_name", PyVal.str "Tom"),
        ("last_name", PyVal.str "Brady"), ("position", PyVal.str "QB"),
        ("team", PyVal.str "TB")])]
      [PId.int 11, PId.int 12] [] [PId.int 11, PId.int 12]).length = 2 ∧
    (mkRosterPlayer [("12", [("first_name", PyVal.str "Tom"),
        ("last_name", PyVal.str "Brady"), ("position", PyVal.str "QB"),
        ("team", PyVal.str "TB")])] ["11", "12"] [] (PId.int 11)).name =
      "Player 11" ∧
    (mkRosterPlayer [("12", [("first_name", PyVal.str "Tom"),
        ("last_name", PyVal.str "Brady"), ("position", PyVal.str "QB"),
        ("team", PyVal.str "TB")])] ["11", "12"] [] (PId.int 11)).position =
      PyVal.str "" := by
  have h := roster_players_spec.2.2.2.1
    [("12", [("first_name", PyVal.str "Tom"), ("last_name", PyVal.str "Brady"),
      ("position", PyVal.str "QB"), ("team", PyVal.str "TB")])]
    ["11", "12"] [] (PId.int 11) rfl
  exact ⟨roster_players_spec.1 _ [PId.int 11, PId.int 12] []
    [PId.int 11, PId.int 12], h.1, h.2.1⟩

/-! ### Player catalog fetch and cache (sleeper_api.py lines 93-132) -/

/-- The possible outcomes of the HTTP fetch inside `get_players`,
matching the source's `except` arms: success, `requests.Timeout`,
`requests.RequestException`, JSON `ValueError`, or any other exception. -/
inductive FetchOutcome where
  | ok (data : PlayersMap)
  | timeout
  | requestError
  | parseError
  | otherError

/-- `get_players()` as a cache transformer: given the cache state (the
value under the fixed players key, or `Option.none` on a miss) and the
outcome the fetch would have, return the function result together with
the new cache state:
```
cached_players = cache.get(SLEEPER_PLAYERS_CACHE_KEY)
if cached_players is not None: return cached_players
try:
    ...; players_data = response.json()
    cache.set(SLEEPER_PLAYERS_CACHE_KEY, players_data, TTL)
    return players_data
except requests.Timeout: return {}
except (requests.RequestException, ValueError): return {}
except Exception: return {}
```
Every `except` arm returns `{}` without touching the cache. -/
def get_players (cached : Option PlayersMap) (outcome : FetchOutcome) :
    PlayersMap × Option PlayersMap :=
  match cached with
  | some p => (p, some p)
  | Option.none =>
    match outcome with
    | .ok data => (data, some data)
    | .timeout => ([], Option.none)
    | .requestError => ([], Option.none)
    | .parseError => ([], Option.none)
    | .otherError => ([], Option.none)

/-- **C10.**  When the fetch fails for any reason — timeout, transport
error, parse error, or any other exception — `get_players` returns the
empty mapping and leaves the cache unchanged; the cache is only ever
written with the data of a successful fetch, so a failure result is never
served from the cache on later calls. -/
theorem get_players_failure_spec :
    (∀ outcome, (∀ d, outcome ≠ FetchOutcome.ok d) →
      get_players Option.none outcome = ([], Option.none)) ∧
    (∀ cached outcome, (get_players cached outcome).2 = cached ∨
      ∃ d, outcome = FetchOutcome.ok d ∧
        (get_players cached outcome).2 = some d) ∧
    (∀ cached outcome p, (get_players cached outcome).2 = some p →
      cached = some p ∨ outcome = FetchOutcome.ok p) := by
  refine ⟨?_, ?_, ?_⟩
  · intro outcome h
    cases outcome with
    | ok d => exact absurd rfl (h d)
    | timeout => rfl
    | requestError => rfl
    | parseError => rfl
    | otherError => rfl
  · intro cached outcome
    cases cached with
    | some p => exact Or.inl rfl
    | none =>
      cases outcome with
      | ok d => exact Or.inr ⟨d, rfl, rfl⟩
      | timeout => exact Or.inl rfl
      | requestError => exact Or.inl rfl
      | parseError => exact Or.inl rfl
      | otherError => exact Or.inl rfl
  · intro cached outcome p h
    cases cached with
    | some q =>
      refine Or.inl ?_
      cases outcome <;> simpa [get_players] using congrArg (fun o => o) h
    | none =>
      refine Or.inr ?_
      cases outcome with
      | ok d =>
        have : some d = some p := by simpa [get_players] using h
        cases this
        rfl
      | timeout => simp [get_players] at h
      | requestError => simp [get_players] at h
      | parseError => simp [get_players] at h
      | otherError => simp [get_players] at h

/-- Witness for C10: a timeout on a cold cache returns the empty catalog
and writes nothing to the cache. -/
theorem get_players_failure_spec_witness :
    get_players Option.none FetchOutcome.timeout = ([], Option.none) :=
  get_players_failure_spec.1 FetchOutcome.timeout (fun d h => by cases h)

/-! ### Order facts for the lexicographic string comparison -/

theorem clLe_total : ∀ a b : List Char, clLe a b = true ∨ clLe b a = true
  | [], _ => Or.inl rfl
  | _ :: _, [] => Or.inr rfl
  | x :: xs, y :: ys => by
    by_cases hxy : x = y
    · subst hxy
      rw [clLe, if_pos rfl, clLe, if_pos rfl]
      exact clLe_total xs ys
    · rw [clLe, if_neg hxy, clLe, if_neg (Ne.symm hxy)]
      rcases le_total x y with h | h
      · exact Or.inl (by simpa [chLe] using h)
      · exact Or.inr (by simpa [chLe] using h)

theorem clLe_trans : ∀ a b c : List Char,
    clLe a b = true → clLe b c = true → clLe a c = true
  | [], _, _, _, _ => rfl
  | x :: xs, [], _, h1, _ => by simp [clLe] at h1
  | x :: xs, y :: ys, [], _, h2 => by simp [clLe] at h2
  | x :: xs, y :: ys, z :: zs, h1, h2 => by
    by_cases hxy : x = y
    · subst hxy
      rw [clLe, if_pos rfl] at h1
      by_cases hyz : x = z
      · subst hyz
        rw [clLe, if_pos rfl] at h2 ⊢
        exact clLe_trans xs ys zs h1 h2
      · rw [clLe, if_neg hyz] at h2 ⊢
        exact h2
    · rw [clLe, if_neg hxy] at h1
      by_cases hyz : y = z
      · subst hyz
        rw [clLe, if_neg hxy]
        exact h1
      · rw [clLe, if_neg hyz] at h2
        by_cases hxz : x = z
        · subst hxz
          have hx : x ≤ y := by simpa [chLe] using h1
          have hy : y ≤ x := by simpa [chLe] using h2
          exact absurd (le_antisymm hx hy) hxy
        · rw [clLe, if_neg hxz]
          have hx : x ≤ y := by simpa [chLe] using h1
          have hy : y ≤ z := by simpa [chLe] using h2
          simpa [chLe] using le_trans hx hy

theorem clLe_antisymm : ∀ a b : List Char,
    clLe a b = true → clLe b a = true → a = b
  | [], [], _, _ => rfl
  | [], _ :: _, _, h2 => by simp [clLe] at h2
  | _ :: _, [], h1, _ => by simp [clLe] at h1
  | x :: xs, y :: ys, h1, h2 => by
    by_cases hxy : x = y
    · subst hxy
      rw [clLe, if_pos rfl] at h1 h2
      rw [clLe_antisymm xs ys h1 h2]
    · rw [clLe, if_neg hxy] at h1
      rw [clLe, if_neg (Ne.symm hxy)] at h2
      have hx : x ≤ y := by simpa [chLe] using h1
      have hy : y ≤ x := by simpa [chLe] using h2
      exact absurd (le_antisymm hx hy) hxy

theorem sLe_total (a b : String) : sLe a b = true ∨ sLe b a = true :=
  clLe_total a.data b.data

theorem sLe_trans {a b c : String} (h1 : sLe a b = true) (h2 : sLe b c = true) :
    sLe a c = true :=
  clLe_trans a.data b.data c.data h1 h2

theorem sLe_antisymm {a b : String} (h1 : sLe a b = true)
    (h2 : sLe b a = true) : a = b := by
  cases a with
  | mk da =>
    cases b with
    | mk db =>
      have : da = db := clLe_antisymm da db h1 h2
      rw [this]

/-! ### Team assembly (sleeper_api.py lines 154-285)

Division names are the resolved string names of the spec's data model;
the raw resolution from league info is `resolve_divisions` above (claim
C3). -/

/-- One normalized team: the `team_data` dict built at lines 260-275. -/
structure Team where
  user_id : PyVal
  username : PyVal
  display_name : PyVal
  team_name : PyVal
  avatar : PyVal
  avatar_url : String
  roster_id : PyVal
  division : Option String
  wins : Int
  losses : Int
  ties : Int
  fpts : Rat
  fpts_decimal : Rat
  total_points : Rat

/-- `get_team_avatar_url` (lines 135-151): CDN URL, or `""` for a falsy
avatar id. -/
def get_team_avatar_url (avatar_id : PyVal) (thumbnail : Bool) : String :=
  if ¬ avatar_id.truthy then "" else
  if thumbnail then "https://sleepercdn.com/avatars/thumbs/" ++ pyStr avatar_id
  else "https://sleepercdn.com/avatars/" ++ pyStr avatar_id

/-- Build one `team_data` record from a user and its roster (lines
209-275). -/
def mkTeamData (divisions : List String) (user roster uid : PyVal) : Team :=
  let settings := rosterSettings roster
  { user_id := uid
    username := user.getd "username" (PyVal.str "")
    display_name := user.getd "display_name" (PyVal.str "")
    team_name := teamName user
    avatar := user.getd "avatar" (PyVal.str "")
    avatar_url := get_team_avatar_url (user.getd "avatar" (PyVal.str "")) true
    roster_id := roster.getd "roster_id" PyVal.none
    division := resolveDivision divisions roster
    wins := safe_int (settings.getd "wins" PyVal.none) 0
    losses := safe_int (settings.getd "losses" PyVal.none) 0
    ties := safe_int (settings.getd "ties" PyVal.none) 0
    fpts := fptsOf settings
    fpts_decimal := fptsDecimalOf settings
    total_points := totalPointsOf settings }

/-- The roster owned by `uid`:
```
roster_by_owner = {roster['owner_id']: roster for roster in rosters if roster.get('owner_id')}
roster = roster_by_owner.get(user_id)
```
A dict comprehension keeps the *last* roster per owner, so the lookup is
a first match over the reversed list of rosters with a truthy owner id;
keys are compared with Python `==` (`pyEqScalar`). -/
def rosterForOwner (rosters : List PyVal) (uid : PyVal) : Option PyVal :=
  ((rosters.filter (fun r => (r.getd "owner_id" PyVal.none).truthy)).reverse).find?
    (fun r => pyEqScalar (r.getd "owner_id" PyVal.none) uid)

/-- The user loop of `get_league_teams` (lines 199-276): skip users
without a truthy `user_id` and users without a matching roster, build a
`team_data` record for the rest. -/
def buildTeams (divisions : List String) (users rosters : List PyVal) :
    List Team :=
  users.filterMap (fun user =>
    let uid := user.getd "user_id" PyVal.none
    if ¬ uid.truthy then Option.none else
    match rosterForOwner rosters uid with
    | Option.none => Option.none
    | some roster => some (mkTeamData divisions user roster uid))

/-- The first sort-key component, `x['division'] or ''`. -/
def divKey (t : Team) : String := t.division.getD ""

/-- The second sort-key component, `x['team_name']` (a string in every
claim scenario; a non-string name would raise `TypeError` inside Python's
sort and is totalized through `pyStr`). -/
def nameKey (t : Team) : String := pyStr t.team_name

/-- Python tuple comparison of `(x['division'] or '', x['team_name'])`. -/
def pairLe (t u : Team) : Bool :=
  if divKey t = divKey u then sLe (nameKey t) (nameKey u)
  else sLe (divKey t) (divKey u)

/-- Comparison by `x['team_name']` alone. -/
def nameLe (t u : Team) : Bool := sLe (nameKey t) (nameKey u)

/-- The final sort (lines 278-282):
```
if divisions:
    teams.sort(key=lambda x: (x['division'] or '', x['team_name']))
else:
    teams.sort(key=lambda x: x['team_name'])
```
Python's stable sort is modelled by insertion sort with the same key
comparison; the claims concern sortedness and membership, which do not
depend on the tie-breaking of the algorithm. -/
def sortTeams (divisions : List String) (teams : List Team) : List Team :=
  if ¬ divisions.isEmpty then
    List.insertionSort (fun t u => pairLe t u = true) teams
  else
    List.insertionSort (fun t u => nameLe t u = true) teams

/-- `get_league_teams`, from the resolved division names and the fetched
users and rosters. -/
def get_league_teams (divisions : List String) (users rosters : List PyVal) :
    List Team :=
  sortTeams divisions (buildTeams divisions users rosters)

theorem pairLe_total (t u : Team) : pairLe t u = true ∨ pairLe u t = true := by
  rw [pairLe, pairLe]
  by_cases h : divKey t = divKey u
  · rw [if_pos h, if_pos h.symm]
    exact sLe_total _ _
  · rw [if_neg h, if_neg (Ne.symm h)]
    exact sLe_total _ _

theorem pairLe_trans (t u v : Team) (h1 : pairLe t u = true)
    (h2 : pairLe u v = true) : pairLe t v = true := by
  rw [pairLe] at h1 h2 ⊢
  by_cases htu : divKey t = divKey u
  · rw [if_pos htu] at h1
    by_cases huv : divKey u = divKey v
    · rw [if_pos huv] at h2
      rw [if_pos (htu.trans huv)]
      exact sLe_trans h1 h2
    · rw [if_neg huv] at h2
      rw [if_neg (htu ▸ huv), htu]
      exact h2
  · rw [if_neg htu] at h1
    by_cases huv : divKey u = divKey v
    · rw [if_neg (fun h => htu (h.trans huv.symm)), ← huv]
      exact h1
    · rw [if_neg huv] at h2
      by_cases htv : divKey t = divKey v
      · exact absurd (sLe_antisymm h1 (htv ▸ h2)) htu
      · rw [if_neg htv]
        exact sLe_trans h1 h2

theorem nameLe_total (t u : Team) : nameLe t u = true ∨ nameLe u t = true :=
  sLe_total _ _

theorem nameLe_trans (t u v : Team) (h1 : nameLe t u = true)
    (h2 : nameLe u v = true) : nameLe t v = true :=
  sLe_trans h1 h2

/-- Every built team's division comes from `resolveDivision` on some
roster. -/
theorem buildTeams_division (divisions : List String) (users rosters : List PyVal)
    (t : Team) (ht : t ∈ buildTeams divisions users rosters) :
    ∃ r, t.division = resolveDivision divisions r := by
  rw [buildTeams] at ht
  obtain ⟨user, _, hf⟩ := List.mem_filterMap.mp ht
  dsimp only at hf
  by_cases h1 : (user.getd "user_id" PyVal.none).truthy
  · rw [if_neg (by simp [h1])] at hf
    cases hro : rosterForOwner rosters (user.getd "user_id" PyVal.none) with
    | none => rw [hro] at hf; cases hf
    | some roster =>
      rw [hro] at hf
      refine ⟨roster, ?_⟩
      cases hf
      rfl
  · rw [if_pos (by simp [h1])] at hf
    cases hf

theorem resolveDivision_nil (r : PyVal) : resolveDivision [] r = Option.none := by
  rw [resolveDivision]
  simp

/-- **C8.**  The normalizer's output is a permutation of the built team
records and is sorted ascending: by the pair
`(division-or-empty-string, team name)` whenever any division was
resolved for any team, and by team name alone whenever no team has a
resolved division. -/
theorem league_teams_sort_spec (divisions : List String)
    (users rosters : List PyVal) :
    (get_league_teams divisions users rosters).Perm
      (buildTeams divisions users rosters) ∧
    ((∃ t ∈ buildTeams divisions users rosters, t.division.isSome) →
      (get_league_teams divisions users rosters).Pairwise
        (fun t u => pairLe t u = true)) ∧
    ((∀ t ∈ buildTeams divisions users rosters, t.division = Option.none) →
      (get_league_teams divisions users rosters).Pairwise
        (fun t u => nameLe t u = true)) := by
  haveI instTot : IsTotal Team (fun t u => pairLe t u = true) := ⟨pairLe_total⟩
  haveI instTrans : IsTrans Team (fun t u => pairLe t u = true) :=
    ⟨pairLe_trans⟩
  haveI instTotN : IsTotal Team (fun t u => nameLe t u = true) := ⟨nameLe_total⟩
  haveI instTransN : IsTrans Team (fun t u => nameLe t u = true) :=
    ⟨nameLe_trans⟩
  refine ⟨?_, ?_, ?_⟩
  · rw [get_league_teams, sortTeams]
    by_cases hd : divisions.isEmpty
    · rw [if_neg (by simp [hd])]
      exact List.perm_insertionSort _ _
    · rw [if_pos (by simp [hd])]
      exact List.perm_insertionSort _ _
  · rintro ⟨t, ht, hsome⟩
    have hne : divisions.isEmpty = false := by
      obtain ⟨r, hr⟩ := buildTeams_division divisions users rosters t ht
      cases hdiv : divisions with
      | nil =>
        rw [hdiv] at hr
        rw [resolveDivision_nil] at hr
        rw [hr] at hsome
        cases hsome
      | cons a l => rfl
    rw [get_league_teams, sortTeams, if_pos (by simp [hne])]
    exact List.sorted_insertionSort _ _
  · intro hnone
    rw [get_league_teams, sortTeams]
    by_cases hd : divisions.isEmpty
    · rw [if_neg (by simp [hd])]
      exact List.sorted_insertionSort _ _
    · rw [if_pos (by simp [hd])]
      have hs : (List.insertionSort (fun t u => pairLe t u = true)
          (buildTeams divisions users rosters)).Pairwise
          (fun t u => pairLe t u = true) :=
        List.sorted_insertionSort _ _
      refine List.Pairwise.imp_of_mem ?_ hs
      intro a b ha hb hab
      have hda : a.division = Option.none :=
        hnone a ((List.mem_insertionSort _).mp ha)
      have hdb : b.division = Option.none :=
        hnone b ((List.mem_insertionSort _).mp hb)
      rw [pairLe, divKey, divKey, hda, hdb] at hab
      simpa [nameLe] using hab

/-- Witness for C8: a concrete two-team league with divisions resolved
(pair-sorted) and another with none resolved (name-sorted). -/
theorem league_teams_sort_spec_witness :
    ((get_league_teams ["East", "West"]
        [PyVal.dict [("user_id", PyVal.str "u1"),
          ("display_name", PyVal.str "Zeta")],
         PyVal.dict [("user_id", PyVal.str "u2"),
          ("display_name", PyVal.str "Alpha")]]
        [PyVal.dict [("owner_id", PyVal.str "u1"), ("roster_id", PyVal.int 1),
          ("settings", PyVal.dict [("division", PyVal.int 2)])],
         PyVal.dict [("owner_id", PyVal.str "u2"), ("roster_id", PyVal.int 2),
          ("settings", PyVal.dict [("division", PyVal.int 1)])]]).Pairwise
      (fun t u => pairLe t u = true)) ∧
    ((get_league_teams []
        [PyVal.dict [("user_id", PyVal.str "u1"),
          ("display_name", PyVal.str "Zeta")],
         PyVal.dict [("user_id", PyVal.str "u2"),
          ("display_name", PyVal.str "Alpha")]]
        [PyVal.dict [("owner_id", PyVal.str "u1"), ("roster_id", PyVal.int 1)],
         PyVal.dict [("owner_id", PyVal.str "u2"),
          ("roster_id", PyVal.int 2)]]).Pairwise
      (fun t u => nameLe t u = true)) := by
  constructor
  · exact (league_teams_sort_spec ["East", "West"]
      [PyVal.dict [("user_id", PyVal.str "u1"),
        ("display_name", PyVal.str "Zeta")],
       PyVal.dict [("user_id", PyVal.str "u2"),
        ("display_name", PyVal.str "Alpha")]]
      [PyVal.dict [("owner_id", PyVal.str "u1"), ("roster_id", PyVal.int 1),
        ("settings", PyVal.dict [("division", PyVal.int 2)])],
       PyVal.dict [("owner_id", PyVal.str "u2"), ("roster_id", PyVal.int 2),
        ("settings", PyVal.dict [("division", PyVal.int 1)])]]).2.1
      (by decide)
  · exact (league_teams_sort_spec []
      [PyVal.dict [("user_id", PyVal.str "u1"),
        ("display_name", PyVal.str "Zeta")],
       PyVal.dict [("user_id", PyVal.str "u2"),
        ("display_name", PyVal.str "Alpha")]]
      [PyVal.dict [("owner_id", PyVal.str "u1"), ("roster_id", PyVal.int 1)],
       PyVal.dict [("owner_id", PyVal.str "u2"),
        ("roster_id", PyVal.int 2)]]).2.2
      (by decide)

/-! ### Reconciler grouping by division (views.py lines 102-156)

The combine loop of `team_list` produces one combined record per sleeper
team, preserving order and carrying `division` over unchanged; the
grouping below therefore operates directly on the normalized team
records. -/

/-- `if division:` — the reconciler's truthiness test on the carried
division (`None` or the empty string are falsy). -/
def hasDivTruthy (t : Team) : Bool :=
  match t.division with
  | some d => d ≠ ""
  | Option.none => false

/-- The bucket a team is filed under: its division when truthy, else
`"Unassigned"`. -/
def groupKey (t : Team) : String :=
  match t.division with
  | some d => if d ≠ "" then d else "Unassigned"
  | Option.none => "Unassigned"

/-- Append a team to the bucket for `k`, creating the bucket at the end
when absent — the behaviour of
`teams_by_division.setdefault(k, []).append(team)` on an
insertion-ordered dict. -/
def bucketAdd : List (String × List Team) → String → Team →
    List (String × List Team)
  | [], k, t => [(k, [t])]
  | (k0, ts) :: rest, k, t =>
    if k0 = k then (k0, ts ++ [t]) :: rest
    else (k0, ts) :: bucketAdd rest k t

/-- The grouping loop over all teams. -/
def groupFold (teams : List Team) : List (String × List Team) :=
  teams.foldl (fun acc t => bucketAdd acc (groupKey t) t) []

/-- `has_divisions` is `len(divisions) > 0` for the set of truthy
divisions collected over the teams. -/
def hasDivisionsFlag (teams : List Team) : Bool := teams.any hasDivTruthy

/-- `teams_by_division`:
```
teams_by_division = {}
if divisions:
    for team in teams_with_stats:
        div = team.get('division')
        if div: teams_by_division[div].append(team)  # creating if absent
        else:   teams_by_division.setdefault("Unassigned", []).append(team)
    teams_by_division = dict(sorted(teams_by_division.items(), key=lambda x: x[0]))
else:
    teams_by_division = {'All Teams': teams_with_stats}
```
The ordered dict is an association list; the final alphabetical ordering
is the stable sort by key. -/
def teams_by_division (teams : List Team) : List (String × List Team) :=
  if hasDivisionsFlag teams then
    List.insertionSort (fun p q => sLe p.1 q.1 = true) (groupFold teams)
  else
    [("All Teams", teams)]

theorem bucketAdd_self (acc : List (String × List Team)) (k : String)
    (t : Team) : ∃ p ∈ bucketAdd acc k t, p.1 = k ∧ t ∈ p.2 := by
  induction acc with
  | nil => exact ⟨(k, [t]), by simp [bucketAdd]⟩
  | cons hd rest ih =>
    obtain ⟨k0, ts⟩ := hd
    by_cases hk : k0 = k
    · refine ⟨(k0, ts ++ [t]), ?_, hk, by simp⟩
      rw [bucketAdd, if_pos hk]
      exact List.mem_cons_self _ _
    · obtain ⟨p, hp, hpk, hpt⟩ := ih
      refine ⟨p, ?_, hpk, hpt⟩
      rw [bucketAdd, if_neg hk]
      exact List.mem_cons_of_mem _ hp

theorem bucketAdd_mono (acc : List (String × List Team)) (k : String)
    (t : Team) (p : String × List Team) (hp : p ∈ acc) (x : Team)
    (hx : x ∈ p.2) : ∃ q ∈ bucketAdd acc k t, q.1 = p.1 ∧ x ∈ q.2 := by
  induction acc with
  | nil => cases hp
  | cons hd rest ih =>
    obtain ⟨k0, ts⟩ := hd
    rcases List.mem_cons.mp hp with hph | hpr
    · subst hph
      by_cases hk : k0 = k
      · refine ⟨(k0, ts ++ [t]), ?_, rfl, ?_⟩
        · rw [bucketAdd, if_pos hk]
          exact List.mem_cons_self _ _
        · exact List.mem_append_left _ hx
      · refine ⟨(k0, ts), ?_, rfl, hx⟩
        rw [bucketAdd, if_neg hk]
        exact List.mem_cons_self _ _
    · by_cases hk : k0 = k
      · refine ⟨p, ?_, rfl, hx⟩
        rw [bucketAdd, if_pos hk]
        exact List.mem_cons_of_mem _ hpr
      · obtain ⟨q, hq, hqk, hqx⟩ := ih hpr
        refine ⟨q, ?_, hqk, hqx⟩
        rw [bucketAdd, if_neg hk]
        exact List.mem_cons_of_mem _ hq

theorem groupFold_carries : ∀ (teams : List Team)
    (acc : List (String × List Team)) (p : String × List Team),
    p ∈ acc → ∀ x ∈ p.2,
    ∃ q ∈ teams.foldl (fun a t => bucketAdd a (groupKey t) t) acc,
      q.1 = p.1 ∧ x ∈ q.2
  | [], acc, p, hp, x, hx => ⟨p, hp, rfl, hx⟩
  | t :: ts, acc, p, hp, x, hx => by
    obtain ⟨q, hq, hqk, hqx⟩ := bucketAdd_mono acc (groupKey t) t p hp x hx
    obtain ⟨q2, hq2, hq2k, hq2x⟩ := groupFold_carries ts _ q hq x hqx
    exact ⟨q2, hq2, hq2k.trans hqk, hq2x⟩

theorem groupFold_mem : ∀ (teams : List Team)
    (acc : List (String × List Team)) (t : Team), t ∈ teams →
    ∃ p ∈ teams.foldl (fun a u => bucketAdd a (groupKey u) u) acc,
      p.1 = groupKey t ∧ t ∈ p.2
  | [], _, t, ht => absurd ht (List.not_mem_nil t)
  | u :: ts, acc, t, ht => by
    rcases List.mem_cons.mp ht with hh | hr
    · subst hh
      obtain ⟨p, hp, hpk, hpt⟩ := bucketAdd_self acc (groupKey t) t
      obtain ⟨q, hq, hqk, hqt⟩ := groupFold_carries ts _ p hp t hpt
      exact ⟨q, hq, hqk.trans hpk, hqt⟩
    · exact groupFold_mem ts _ t hr

/-- **C9.**  When no team has a (truthy) division, the reconciler's
output is exactly one bucket `"All Teams"` holding all teams, and
`hasDivisions` is false.  When at least one team has a non-empty
division, `hasDivisions` is true, every team with a non-empty division
sits in the bucket named by that division, every other team sits in
`"Unassigned"`, and the buckets are ordered alphabetically by key. -/
theorem division_grouping_spec :
    (∀ t : Team, ∀ d, t.division = some d → d ≠ "" → groupKey t = d) ∧
    (∀ t : Team, t.division = Option.none ∨ t.division = some "" →
      groupKey t = "Unassigned") ∧
    (∀ teams : List Team, (∀ t ∈ teams, hasDivTruthy t = false) →
      teams_by_division teams = [("All Teams", teams)] ∧
      hasDivisionsFlag teams = false) ∧
    (∀ teams : List Team, (∃ t ∈ teams, hasDivTruthy t = true) →
      hasDivisionsFlag teams = true ∧
      (∀ t ∈ teams, ∃ p ∈ teams_by_division teams,
        p.1 = groupKey t ∧ t ∈ p.2) ∧
      (teams_by_division teams).Pairwise (fun p q => sLe p.1 q.1 = true)) := by
  haveI instTotK : IsTotal (String × List Team)
      (fun p q => sLe p.1 q.1 = true) := ⟨fun p q => sLe_total p.1 q.1⟩
  haveI instTransK : IsTrans (String × List Team)
      (fun p q => sLe p.1 q.1 = true) := ⟨fun p q r => sLe_trans⟩
  refine ⟨?_, ?_, ?_, ?_⟩
  · intro t d h1 h2
    rw [groupKey, h1]
    simp [h2]
  · intro t h
    rcases h with h | h
    · rw [groupKey, h]
    · rw [groupKey, h]
      simp
  · intro teams h
    have hflag : hasDivisionsFlag teams = false := by
      rw [hasDivisionsFlag, List.any_eq_false]
      intro t ht
      simp [h t ht]
    exact ⟨by rw [teams_by_division, if_neg (by simp [hflag])], hflag⟩
  · intro teams h
    have hflag : hasDivisionsFlag teams = true := by
      rw [hasDivisionsFlag, List.any_eq_true]
      obtain ⟨t, ht, hd⟩ := h
      exact ⟨t, ht, hd⟩
    refine ⟨hflag, ?_, ?_⟩
    · intro t ht
      obtain ⟨p, hp, hpk, hpt⟩ := groupFold_mem teams [] t ht
      refine ⟨p, ?_, hpk, hpt⟩
      rw [teams_by_division, if_pos hflag]
      rw [List.mem_insertionSort]
      exact hp
    · rw [teams_by_division, if_pos hflag]
      exact List.sorted_insertionSort _ _

/-- Witness for C9: one league where no team has a division (single
`"All Teams"` bucket) and one where a team does (its bucket exists, the
other team is in `"Unassigned"`). -/
theorem division_grouping_spec_witness :
    (teams_by_division
        [mkTeamData [] (PyVal.dict [("user_id", PyVal.str "u1"),
            ("display_name", PyVal.str "Alpha")])
          (PyVal.dict [("owner_id", PyVal.str "u1")]) (PyVal.str "u1")] =
      [("All Teams",
        [mkTeamData [] (PyVal.dict [("user_id", PyVal.str "u1"),
            ("display_name", PyVal.str "Alpha")])
          (PyVal.dict [("owner_id", PyVal.str "u1")]) (PyVal.str "u1")])]) ∧
    (hasDivisionsFlag
        [mkTeamData ["East"] (PyVal.dict [("user_id", PyVal.str "u1"),
            ("display_name", PyVal.str "Alpha")])
          (PyVal.dict [("owner_id", PyVal.str "u1"),
            ("division", PyVal.int 1)]) (PyVal.str "u1")] = true) := by
  constructor
  · exact (division_grouping_spec.2.2.1
      [mkTeamData [] (PyVal.dict [("user_id", PyVal.str "u1"),
          ("display_name", PyVal.str "Alpha")])
        (PyVal.dict [("owner_id", PyVal.str "u1")]) (PyVal.str "u1")]
      (by decide)).1
  · exact (division_grouping_spec.2.2.2
      [mkTeamData ["East"] (PyVal.dict [("user_id", PyVal.str "u1"),
          ("display_name", PyVal.str "Alpha")])
        (PyVal.dict [("owner_id", PyVal.str "u1"),
          ("division", PyVal.int 1)]) (PyVal.str "u1")]
      ⟨mkTeamData ["East"] (PyVal.dict [("user_id", PyVal.str "u1"),
          ("display_name", PyVal.str "Alpha")])
        (PyVal.dict [("owner_id", PyVal.str "u1"),
          ("division", PyVal.int 1)]) (PyVal.str "u1"),
        List.mem_cons_self _ _, by decide⟩).1

end FantasyStats
